import Mathlib

/-!
Verification of the procedural surface geometry engine of the `lsystems-gui`
repository against its natural-language specification.

The development shallowly embeds the relevant Rust code:

* `src/data/bezier.rs` — Bézier curve / patch parameters and evaluation
  (`BezierCurveParameters::evaluate`, `BezierPatchParameters::evaluate`).
* `src/rendering/bezier.rs` and the `PlaneGeometry` part of
  `src/rendering/meshes.rs` — tessellation of a patch into a vertex grid
  (`BezierGeometry::new`, `PlaneGeometry::new`).
* The `NormalGenerator` of `src/rendering/meshes.rs` — face decomposition
  (`calculate_faces`, `calculate_indexed_faces`) and vertex-normal
  generation (`generate_normals`, `generate_indexed_normals`).
* `ExtendableBasicGeometry::attr_by_label{_mut}` and
  `Mesh::{new, new_indexed, retrieve_vertex_count}` of the same file.
* The picking / drag controller of `src/scene/bezier/mod.rs`
  (`find_clicked_control_point`, `handle_event`, `refresh_meshes`,
  `refresh_mesh_for`, `refresh_control_meshes_for_dragged`).

Machine floats (`f32`) are modelled as exact rationals `ℚ` where the code
performs only field operations, and as real numbers `ℝ` where it takes
square roots (vector normalisation).  Rust panics are modelled by `Option`:
`none` is an abort, `some` a published result.  External capabilities
(camera unprojection, depth-buffer reads, the GPU, materials) are modelled
as opaque data carried by the state or the event, exactly as the spec's
external-interface section prescribes.
-/

namespace LSystems

/-- A 3-component vector with exact rational components, modelling
`nalgebra_glm::Vec3` (`f32` components) in the parts of the code that use
only `+`, `-`, `*`, `/`. -/
structure Vec3 where
  x : ℚ
  y : ℚ
  z : ℚ
deriving DecidableEq, Repr

namespace Vec3

/-- `Vec3::zeros()`. -/
def zeros : Vec3 := ⟨0, 0, 0⟩

/-- Componentwise addition of vectors. -/
def add (a b : Vec3) : Vec3 := ⟨a.x + b.x, a.y + b.y, a.z + b.z⟩

instance : Add Vec3 := ⟨add⟩

/-- Componentwise subtraction of vectors. -/
def sub (a b : Vec3) : Vec3 := ⟨a.x - b.x, a.y - b.y, a.z - b.z⟩

instance : Sub Vec3 := ⟨sub⟩

/-- Scalar multiplication `v * s` as used in the Bernstein blend. -/
def scale (s : ℚ) (a : Vec3) : Vec3 := ⟨a.x * s, a.y * s, a.z * s⟩

/-- Squared Euclidean distance between two points; used to model the
sphere-proximity test of the picking controller without square roots. -/
def distSq (a b : Vec3) : ℚ :=
  (a.x - b.x) ^ 2 + (a.y - b.y) ^ 2 + (a.z - b.z) ^ 2

end Vec3

/-- `BezierCurveParameters` of `src/data/bezier.rs`: the four control
points of one cubic curve.  The Rust `[Vec3; 4]` array is rendered as four
named fields. -/
structure BezierCurveParameters where
  p0 : Vec3
  p1 : Vec3
  p2 : Vec3
  p3 : Vec3
deriving DecidableEq, Repr

namespace BezierCurveParameters

/-- `BezierCurveParameters::from_points`. -/
def from_points (a b c d : Vec3) : BezierCurveParameters := ⟨a, b, c, d⟩

/-- `control_points[k]` for `k ∈ {0,1,2,3}`. -/
def point (c : BezierCurveParameters) : ℕ → Vec3
  | 0 => c.p0
  | 1 => c.p1
  | 2 => c.p2
  | _ => c.p3

/-- Overwrite `control_points[k]`. -/
def setPoint (c : BezierCurveParameters) (k : ℕ) (v : Vec3) : BezierCurveParameters :=
  match k with
  | 0 => { c with p0 := v }
  | 1 => { c with p1 := v }
  | 2 => { c with p2 := v }
  | _ => { c with p3 := v }

/-- `BezierCurveParameters::evaluate`: the Bernstein blend
`(1−u)³·P0 + 3u(1−u)²·P1 + 3u²(1−u)·P2 + u³·P3`, written exactly as in the
source (`b0..b3` computed first, then the weighted sum). -/
def evaluate (c : BezierCurveParameters) (u : ℚ) : Vec3 :=
  let b0 := (1 - u) ^ 3
  let b1 := 3 * u * ((1 - u) ^ 2)
  let b2 := 3 * (u ^ 2) * (1 - u)
  let b3 := u ^ 3
  (c.p0.scale b0) + (c.p1.scale b1) + (c.p2.scale b2) + (c.p3.scale b3)

end BezierCurveParameters

/-- `BezierPatchParameters` of `src/data/bezier.rs`: four row curves plus a
display color. -/
structure BezierPatchParameters where
  c0 : BezierCurveParameters
  c1 : BezierCurveParameters
  c2 : BezierCurveParameters
  c3 : BezierCurveParameters
  color : Vec3
deriving DecidableEq, Repr

namespace BezierPatchParameters

/-- `curves[j]` for `j ∈ {0,1,2,3}`. -/
def curve (p : BezierPatchParameters) : ℕ → BezierCurveParameters
  | 0 => p.c0
  | 1 => p.c1
  | 2 => p.c2
  | _ => p.c3

/-- Overwrite `curves[j]`. -/
def setCurve (p : BezierPatchParameters) (j : ℕ) (c : BezierCurveParameters) :
    BezierPatchParameters :=
  match j with
  | 0 => { p with c0 := c }
  | 1 => { p with c1 := c }
  | 2 => { p with c2 := c }
  | _ => { p with c3 := c }

/-- `BezierPatchParameters::evaluate`: evaluate the four row curves at `u`,
then blend the four resulting points as a curve in `v`. -/
def evaluate (p : BezierPatchParameters) (u v : ℚ) : Vec3 :=
  let pt0 := p.c0.evaluate u
  let pt1 := p.c1.evaluate u
  let pt2 := p.c2.evaluate u
  let pt3 := p.c3.evaluate u
  let temp_curve := BezierCurveParameters.from_points pt0 pt1 pt2 pt3
  temp_curve.evaluate v

end BezierPatchParameters

/-- `PrimitiveType` of `src/rendering/meshes.rs` (the GL numeric values are
irrelevant to the model). -/
inductive PrimitiveType where
  | Triangles
  | TriangleStrip
  | TriangleFan
  | Lines
  | LineStrip
  | LineLoop
  | Points
deriving DecidableEq, Repr

/-- A face: an ordered triple of vertex indices (`UVec3` in the source). -/
abbrev Face := ℕ × ℕ × ℕ

namespace NormalGenerator

/-- `NormalGenerator::calculate_indexed_faces`.  A Rust `panic!` is
modelled as `none`.  `for i in 2..len` loops are rendered as maps over
`List.range' 2 (len - 2)`, and `step_by(3)` over a length divisible by 3
as a map over `List.range (len / 3)`.  In-bounds slice indexing
`indices[i]` is rendered as `getD i 0` (every access in these loops is in
bounds whenever the loop body runs). -/
def calculate_indexed_faces (pt : PrimitiveType) (indices : List ℕ) :
    Option (List Face) :=
  let idx := fun i => indices.getD i 0
  match pt with
  | .TriangleFan =>
      some ((List.range' 2 (indices.length - 2)).map fun i => (idx 0, idx (i - 1), idx i))
  | .Triangles =>
      if indices.length % 3 ≠ 0 then none
      else some ((List.range (indices.length / 3)).map fun t =>
        (idx (3 * t), idx (3 * t + 1), idx (3 * t + 2)))
  | .TriangleStrip =>
      some ((List.range' 2 (indices.length - 2)).map fun i => (idx (i - 2), idx (i - 1), idx i))
  | _ => none

/-- `NormalGenerator::calculate_faces`.  Aborts (`none`) when fewer than
three vertices are supplied, and on a triangle-list vertex count that is
not a multiple of 3. -/
def calculate_faces (pt : PrimitiveType) (num_vertices : ℕ) :
    Option (List Face) :=
  if num_vertices < 3 then none
  else
    match pt with
    | .TriangleFan =>
        some ((List.range' 2 (num_vertices - 2)).map fun i => (0, i - 1, i))
    | .Triangles =>
        if num_vertices % 3 ≠ 0 then none
        else some ((List.range (num_vertices / 3)).map fun t =>
          (3 * t, 3 * t + 1, 3 * t + 2))
    | .TriangleStrip =>
        some ((List.range' 2 (num_vertices - 2)).map fun i => (i - 2, i - 1, i))
    | _ => none

end NormalGenerator

/-- A 3-component vector with real components, modelling `Vec3` in the
parts of the code that normalise vectors (normalisation takes a square
root, so exact rationals do not suffice). -/
structure RVec3 where
  x : ℝ
  y : ℝ
  z : ℝ

namespace RVec3

/-- `Vec3::zeros()`. -/
noncomputable def zeros : RVec3 := ⟨0, 0, 0⟩

/-- Componentwise addition (the `+=` accumulation of `generate_normals`). -/
noncomputable def add (a b : RVec3) : RVec3 := ⟨a.x + b.x, a.y + b.y, a.z + b.z⟩

noncomputable instance : Add RVec3 := ⟨add⟩

/-- Componentwise subtraction (`vC - vB`, `vA - vB`). -/
noncomputable def sub (a b : RVec3) : RVec3 := ⟨a.x - b.x, a.y - b.y, a.z - b.z⟩

noncomputable instance : Sub RVec3 := ⟨sub⟩

/-- `nalgebra` cross product `a.cross(&b)`. -/
noncomputable def cross (a b : RVec3) : RVec3 :=
  ⟨a.y * b.z - a.z * b.y, a.z * b.x - a.x * b.z, a.x * b.y - a.y * b.x⟩

/-- `nalgebra` `normalize()`: divide by the Euclidean norm. -/
noncomputable def normalize (v : RVec3) : RVec3 :=
  let n := Real.sqrt (v.x ^ 2 + v.y ^ 2 + v.z ^ 2)
  ⟨v.x / n, v.y / n, v.z / n⟩

end RVec3

namespace NormalGenerator

/-- `NormalGenerator::generate_face_normals`: for each face, the
normalised cross product `(vC − vB) × (vA − vB)` of the face's three
positions.  An out-of-bounds position lookup is a Rust panic, hence
`none`. -/
noncomputable def generate_face_normals (positions : List RVec3) :
    List Face → Option (List RVec3)
  | [] => some []
  | f :: rest =>
    match positions[f.1]?, positions[f.2.1]?, positions[f.2.2]? with
    | some vA, some vB, some vC =>
        (generate_face_normals positions rest).map
          (fun tail => RVec3.normalize (RVec3.cross (vC - vB) (vA - vB)) :: tail)
    | _, _, _ => none

/-- One accumulation step of `generate_normals`: the face normal is
*added* (`+=`) into the accumulator of each of the face's three
vertices. -/
noncomputable def accumulateFace (ns : List RVec3) (fn : Face × RVec3) : List RVec3 :=
  let f := fn.1
  let nrm := fn.2
  let ns1 := ns.set f.1 (ns.getD f.1 RVec3.zeros + nrm)
  let ns2 := ns1.set f.2.1 (ns1.getD f.2.1 RVec3.zeros + nrm)
  ns2.set f.2.2 (ns2.getD f.2.2 RVec3.zeros + nrm)

/-- One accumulation step of `generate_indexed_normals`.  The source
*assigns* (`=`) instead of adding — its own comment reads
`TODO normally this would be +=, why is it not working with +=?` — so
each vertex keeps only the normal of the *last* face that touched it. -/
noncomputable def overwriteFace (ns : List RVec3) (fn : Face × RVec3) : List RVec3 :=
  let f := fn.1
  let nrm := fn.2
  ((ns.set f.1 nrm).set f.2.1 nrm).set f.2.2 nrm

/-- `NormalGenerator::generate_normals` (non-indexed variant): zero
accumulators, face decomposition, face normals, `+=` accumulation, final
normalisation. -/
noncomputable def generate_normals (pt : PrimitiveType) (positions : List RVec3) :
    Option (List RVec3) :=
  let normals0 := List.replicate positions.length RVec3.zeros
  (calculate_faces pt positions.length).bind fun faces =>
    (generate_face_normals positions faces).map fun face_normals =>
      ((faces.zip face_normals).foldl accumulateFace normals0).map RVec3.normalize

/-- `NormalGenerator::generate_indexed_normals` (indexed variant): same
pipeline, but faces come from the index list and the accumulation loop
*overwrites* instead of adding. -/
noncomputable def generate_indexed_normals (pt : PrimitiveType)
    (positions : List RVec3) (indices : List ℕ) : Option (List RVec3) :=
  let normals0 := List.replicate positions.length RVec3.zeros
  (calculate_indexed_faces pt indices).bind fun faces =>
    (generate_face_normals positions faces).map fun face_normals =>
      ((faces.zip face_normals).foldl overwriteFace normals0).map RVec3.normalize

end NormalGenerator

/-- Apply a sequence of `(index, value)` writes to a list, left to right
(`List.set` semantics).  Helper used to reason about the tessellation
write loops. -/
def applyWrites (l : List α) (ws : List (ℕ × α)) : List α :=
  ws.foldl (fun acc w => acc.set w.1 w.2) l

namespace PlaneGeometry

/-- The vertex construction loop of `PlaneGeometry::new`: a zero-filled
buffer of `(rows+1)*(cols+1)` vertices, then `vertices[y*(cols+1)+x] =
(x/cols, y/rows, 0)` for every grid coordinate (the source shadows
`rows`/`cols` with `rows+1`/`cols+1` and divides by `cols-1`/`rows-1` of
the shadowed values, i.e. by the original `cols`/`rows`). -/
def initialVertices (rows cols : ℕ) : List Vec3 :=
  (List.range (rows + 1)).foldl (fun acc y =>
    (List.range (cols + 1)).foldl (fun acc2 x =>
      acc2.set (y * (cols + 1) + x) ⟨(x : ℚ) / (cols : ℚ), (y : ℚ) / (rows : ℚ), 0⟩) acc)
    (List.replicate ((rows + 1) * (cols + 1)) Vec3.zeros)

/-- The index construction loop of `PlaneGeometry::new`: per row, a
triangle-strip-compatible zig-zag over the row and the next row, plus two
degenerate stitch indices between consecutive rows. -/
def stripIndices (rows cols : ℕ) : List ℕ :=
  (List.range rows).foldl (fun acc y =>
    let base := y * (cols + 1)
    let acc2 := acc ++ (List.range (cols + 1)).flatMap
      (fun x => [base + x, base + (cols + 1) + x])
    if y < rows - 1 then acc2 ++ [(y + 1) * (cols + 1) + cols, (y + 1) * (cols + 1)]
    else acc2) []

/-- Modelled from the spec: `PlaneGeometry::set_vertex` is called by
`BezierGeometry::new` but its definition is absent from the provided
sources.  Per the spec's tessellation description (positions of the
`(rows+1) × (cols+1)` vertex grid are set per grid index after sampling),
it overwrites the position stored at the given vertex index. -/
def set_vertex (positions : List Vec3) (index : ℕ) (v : Vec3) : List Vec3 :=
  positions.set index v

end PlaneGeometry

/-- Geometry generated from a bicubic Bézier patch
(`src/rendering/bezier.rs`).  Only the data relevant to the verified
claims is retained: the position attribute and the index stream of the
underlying plane (colors are a constant fill; normals are regenerated from
the final positions by the indexed `NormalGenerator`, which is modelled
separately over `ℝ` and does not affect positions). -/
structure BezierGeometry where
  positions : List Vec3
  indices : List ℕ
deriving DecidableEq, Repr

namespace BezierGeometry

/-- The double tessellation loop of `BezierGeometry::new`: for every
`x ∈ [0, cols]` evaluate the four control curves at `u = x/cols`; for
every `y ∈ [0, rows]` blend them at `v = y/rows` and write the result at
vertex index `y*(cols+1) + x`. -/
def new (parameters : BezierPatchParameters) (rows cols : ℕ) : BezierGeometry :=
  let plane0 := PlaneGeometry.initialVertices rows cols
  let positions := (List.range (cols + 1)).foldl (fun acc (x : ℕ) =>
    let u := (x : ℚ) / (cols : ℚ)
    let pt0 := parameters.c0.evaluate u
    let pt1 := parameters.c1.evaluate u
    let pt2 := parameters.c2.evaluate u
    let pt3 := parameters.c3.evaluate u
    (List.range (rows + 1)).foldl (fun acc2 (y : ℕ) =>
      let v := (y : ℚ) / (rows : ℚ)
      let index : ℕ := y * (cols + 1) + x
      PlaneGeometry.set_vertex acc2 index
        ((BezierCurveParameters.from_points pt0 pt1 pt2 pt3).evaluate v)) acc) plane0
  { positions := positions, indices := PlaneGeometry.stripIndices rows cols }

end BezierGeometry

/-- A dynamically attached attribute channel of
`ExtendableBasicGeometry`: a label, a runtime element-type tag (Rust
recovers it by `Any` downcasting on the element type `T`), and the raw
channel data. -/
structure DynAttr where
  label : String
  tag : ℕ
  data : List ℚ
deriving DecidableEq, Repr

/-- `ExtendableBasicGeometry`: the three built-in channels plus the
dynamically added attributes (only the `dynamic` list is searched by the
label lookups). -/
structure ExtendableBasicGeometry where
  positions : List Vec3
  colors : List Vec3
  normals : List Vec3
  dynamic : List DynAttr
deriving DecidableEq, Repr

namespace ExtendableBasicGeometry

/-- `ExtendableBasicGeometry::attr_by_label::<T>`: find the first dynamic
attribute with the requested label (`expect` panic — `none` — when
absent), then downcast to the requested element type (`panic!` — `none` —
on a type mismatch). -/
def attr_by_label (geo : ExtendableBasicGeometry) (tag : ℕ) (label : String) :
    Option DynAttr :=
  match geo.dynamic.find? (fun a => a.label == label) with
  | none => none
  | some a => if a.tag = tag then some a else none

/-- `ExtendableBasicGeometry::attr_by_label_mut::<T>`: identical lookup
logic to `attr_by_label`, returning the mutable reference instead. -/
def attr_by_label_mut (geo : ExtendableBasicGeometry) (tag : ℕ) (label : String) :
    Option DynAttr :=
  match geo.dynamic.find? (fun a => a.label == label) with
  | none => none
  | some a => if a.tag = tag then some a else none

end ExtendableBasicGeometry

/-- `Mesh` (`src/rendering/meshes.rs`): the model keeps the data relevant
to construction — primitive type, the per-channel buffer copies, the
derived vertex count, and the optional index buffer.  GPU handles and the
material are irrelevant to the verified claims. -/
structure Mesh where
  primitive_type : PrimitiveType
  buffers : List (List ℚ)
  num_vertices : ℕ
  index_buffer : Option (List ℕ)
deriving DecidableEq, Repr

namespace Mesh

/-- The local `all_same` helper of `Mesh::retrieve_vertex_count`: `false`
on an empty list, otherwise whether every entry equals the first. -/
def all_same (arr : List ℕ) : Bool :=
  match arr with
  | [] => false
  | first :: _ => arr.all (fun item => item = first)

/-- `Mesh::retrieve_vertex_count`: `some` of the common channel length
when all channel lengths agree, `none` otherwise.  A geometry is passed as
its list of attribute channels (`retrieve_attributes`), each modelled by
its raw data. -/
def retrieve_vertex_count (attributes : List (List ℚ)) : Option ℕ :=
  let lengths := attributes.map List.length
  match all_same lengths with
  | true => some (lengths.getD 0 0)
  | false => none

/-- `Mesh::new`: non-indexed construction; the `expect` on
`retrieve_vertex_count` ("Geometry attribute buffer sizes inconsistent")
is the only failure path. -/
def new (pt : PrimitiveType) (attributes : List (List ℚ)) : Option Mesh :=
  (retrieve_vertex_count attributes).map fun n =>
    { primitive_type := pt, buffers := attributes, num_vertices := n,
      index_buffer := none }

/-- `Mesh::new_indexed`: indexed construction; the vertex count is taken
from the index sequence length and no attribute-length check is performed
(there is no failure path). -/
def new_indexed (pt : PrimitiveType) (attributes : List (List ℚ))
    (indices : List ℕ) : Mesh :=
  { primitive_type := pt, buffers := attributes, num_vertices := indices.length,
    index_buffer := some indices }

end Mesh

/-- `BezierCurveParameters::empty`: four zero control points. -/
def BezierCurveParameters.empty : BezierCurveParameters :=
  ⟨Vec3.zeros, Vec3.zeros, Vec3.zeros, Vec3.zeros⟩

/-- `BezierPatchParameters::empty`: four empty curves and the default
grey color. -/
def BezierPatchParameters.empty : BezierPatchParameters :=
  ⟨BezierCurveParameters.empty, BezierCurveParameters.empty,
   BezierCurveParameters.empty, BezierCurveParameters.empty,
   ⟨7/10, 7/10, 7/10⟩⟩

/-- One refresh action performed by the Bézier editor scene, mirroring the
helper the `handle_event` code path invokes: `surface i` is a call of
`create_mesh` for patch `i` (a full re-tessellation of that patch's
surface geometry with regenerated normals), `controls i` rebuilds patch
`i`'s control-point model and control-curve mesh, `normalsVis i` rebuilds
its normal-vector visualisation. -/
inductive RefreshEffect where
  | surface (i : ℕ)
  | controls (i : ℕ)
  | normalsVis (i : ℕ)
deriving DecidableEq, Repr

namespace BezierEditorScene

/-- `BezierEditorScene::create_mesh`: tessellate the patch at the fixed
30×30 resolution (the `ShadedMaterial` and GPU upload are irrelevant to
the claims; the mesh is identified with its geometry). -/
def create_mesh (patch : BezierPatchParameters) : BezierGeometry :=
  BezierGeometry.new patch 30 30

/-- `BezierEditorScene::create_normal_mesh`: same 30×30 tessellation,
rendered with the normal-visualisation material. -/
def create_normal_mesh (patch : BezierPatchParameters) : BezierGeometry :=
  BezierGeometry.new patch 30 30

/-- `BezierEditorScene::create_control_point_model`: one sphere placement
(translation) per control point, in curve order. -/
def create_control_point_model (patch : BezierPatchParameters) : List Vec3 :=
  [patch.c0, patch.c1, patch.c2, patch.c3].flatMap
    (fun c => [c.p0, c.p1, c.p2, c.p3])

/-- `BezierEditorScene::create_control_curve_mesh`: for each curve the
three line segments `(p[i-1], p[i])`, `i = 1..3`, as a flat vertex
list. -/
def create_control_curve_mesh (patch : BezierPatchParameters) : List Vec3 :=
  [patch.c0, patch.c1, patch.c2, patch.c3].flatMap
    (fun c => [c.p0, c.p1, c.p1, c.p2, c.p2, c.p3])

end BezierEditorScene

/-- The state of `BezierEditorScene` relevant to the picking/drag claims.
The camera is an external capability; per the spec it is consumed only
through unprojection, so it appears as the opaque function
`unproject_camera` (the scene's own `unproject` wrapper flips the y
coordinate before calling it).  Meshes are identified with the geometry
they were built from.  GUI-only fields are omitted. -/
structure BezierEditorScene where
  working_copy : List BezierPatchParameters
  active : List Bool
  meshes : List BezierGeometry
  control_point_models : List (List Vec3)
  control_curve_meshes : List (List Vec3)
  normal_vector_vis : List BezierGeometry
  draw_normal_vectors : Bool
  width : ℕ
  height : ℕ
  drag_begin : Option (ℕ × ℕ)
  drag_depth : Option ℚ
  dragged_point : Option (ℕ × ℕ × ℕ)
  in_drag : Bool
  unproject_camera : ℕ → ℕ → ℚ → Vec3

namespace BezierEditorScene

/-- `BezierEditorScene::unproject`: unproject a window position through
the camera, flipping y (`height - y`) as the source does. -/
def unproject (s : BezierEditorScene) (x y : ℕ) (depth : ℚ) : Vec3 :=
  s.unproject_camera x (s.height - y) depth

/-- The `ncollide` proximity test used by the picking code: two balls of
radius `0.01` intersect exactly when the distance of their centers is at
most `0.02`, i.e. when the squared distance is at most `(1/50)² =
1/2500`.  (The `0.01` margin only distinguishes `WithinMargin` from
`Disjoint`; the code accepts only `Intersecting`.) -/
def ballsIntersect (a b : Vec3) : Bool :=
  Vec3.distSq a b ≤ (1/50 : ℚ) ^ 2

/-- `BezierEditorScene::find_clicked_control_point`.  The depth-buffer
read at the cursor pixel is external input (`depth`).  The nested loops
with early `return` over patches (skipping inactive ones), curves and
points are rendered as nested `findSome?`. -/
def find_clicked_control_point (s : BezierEditorScene) (x y : ℕ) (depth : ℚ) :
    Option (ℚ × ℕ × ℕ × ℕ) :=
  let position := s.unproject x y depth
  s.working_copy.enum.findSome? (fun ip =>
    if (s.active.getD ip.1 false) = false then none
    else (List.range 4).findSome? (fun j =>
      (List.range 4).findSome? (fun k =>
        if ballsIntersect position ((ip.2.curve j).point k)
        then some (depth, ip.1, j, k) else none)))

/-- The enumeration order of the picking loop, written out as a flat
candidate list: all `(patch, curve, point)` triples of active patches in
lexicographic nested order.  This is the specification-side description
of `find_clicked_control_point`'s search order. -/
def pickOrder (s : BezierEditorScene) : List (ℕ × ℕ × ℕ) :=
  ((List.range s.working_copy.length).filter (fun i => s.active.getD i false)).flatMap
    (fun i => (List.range 4).flatMap (fun j =>
      (List.range 4).map (fun k => (i, j, k))))

/-- Whether the picking sphere around `pos` intersects the sphere around
control point `t = (i, j, k)` — the specification-side hit predicate. -/
def hitsPoint (s : BezierEditorScene) (pos : Vec3) (t : ℕ × ℕ × ℕ) : Bool :=
  ballsIntersect pos
    (((s.working_copy.getD t.1 BezierPatchParameters.empty).curve t.2.1).point t.2.2)

/-- `BezierEditorScene::refresh_mesh_for`: rebuild patch `index`'s surface
mesh, control-point model and control-curve mesh (and its normal
visualisation when enabled).  Returns the refresh actions performed. -/
def refresh_mesh_for (s : BezierEditorScene) (index : ℕ) :
    BezierEditorScene × List RefreshEffect :=
  let patch := s.working_copy.getD index BezierPatchParameters.empty
  ({ s with
      meshes := s.meshes.set index (create_mesh patch),
      control_point_models :=
        s.control_point_models.set index (create_control_point_model patch),
      control_curve_meshes :=
        s.control_curve_meshes.set index (create_control_curve_mesh patch),
      normal_vector_vis :=
        if s.draw_normal_vectors
        then s.normal_vector_vis.set index (create_normal_mesh patch)
        else s.normal_vector_vis },
   [.surface index, .controls index] ++
     (if s.draw_normal_vectors then [.normalsVis index] else []))

/-- `BezierEditorScene::refresh_meshes`: rebuild the surface meshes (and,
when enabled, normal visualisations) of *all* patches, then all
control-point models and control-curve meshes. -/
def refresh_meshes (s : BezierEditorScene) :
    BezierEditorScene × List RefreshEffect :=
  ({ s with
      meshes := s.working_copy.map create_mesh,
      normal_vector_vis :=
        if s.draw_normal_vectors then s.working_copy.map create_normal_mesh else [],
      control_point_models := s.working_copy.map create_control_point_model,
      control_curve_meshes := s.working_copy.map create_control_curve_mesh },
   (List.range s.working_copy.length).flatMap
       (fun i => [RefreshEffect.surface i] ++
         (if s.draw_normal_vectors then [RefreshEffect.normalsVis i] else [])) ++
     (List.range s.working_copy.length).map RefreshEffect.controls)

/-- `BezierEditorScene::refresh_control_meshes_for_dragged`: rebuild only
the control-point model and control-curve mesh of the patch owning the
dragged point; a no-op when no point is being dragged. -/
def refresh_control_meshes_for_dragged (s : BezierEditorScene) :
    BezierEditorScene × List RefreshEffect :=
  match s.dragged_point with
  | some (i, _, _) =>
      let patch := s.working_copy.getD i BezierPatchParameters.empty
      ({ s with
          control_curve_meshes :=
            s.control_curve_meshes.set i (create_control_curve_mesh patch),
          control_point_models :=
            s.control_point_models.set i (create_control_point_model patch) },
       [.controls i])
  | none => (s, [])

/-- The input events handled by `BezierEditorScene::handle_event`.  A
primary-button press carries the externally read depth-buffer value at
the cursor pixel; cursor positions are modelled at pixel resolution. -/
inductive SceneEvent where
  | mouseButtonPress (x y : ℕ) (depth : ℚ)
  | mouseButtonRelease
  | cursorPos (x y : ℕ)
deriving DecidableEq, Repr

/-- `BezierEditorScene::handle_event`, together with the list of refresh
actions the handled event triggered.  `none` models a panic (an `unwrap`
of an unexpectedly empty drag field).  The camera also receives the event
whenever `in_drag` is false afterwards; camera navigation state is
external and not modelled. -/
def handle_event (s : BezierEditorScene) (e : SceneEvent) :
    Option (BezierEditorScene × List RefreshEffect) :=
  match e with
  | .mouseButtonPress x y depth =>
      match find_clicked_control_point s x y depth with
      | some (d, i, j, k) =>
          some ({ s with
              drag_begin := some (x, y),
              drag_depth := some d,
              in_drag := true,
              dragged_point := some (i, j, k) }, [])
      | none => some (s, [])
  | .mouseButtonRelease =>
      if s.in_drag then
        some (refresh_meshes { s with in_drag := false })
      else some (s, [])
  | .cursorPos x y =>
      if s.in_drag then
        if x ≤ s.width ∧ y ≤ s.height then
          match s.drag_begin, s.drag_depth, s.dragged_point with
          | some _, some d, some (i, j, k) =>
              let new_point := s.unproject x y d
              let patch := s.working_copy.getD i BezierPatchParameters.empty
              let patch2 := patch.setCurve j ((patch.curve j).setPoint k new_point)
              some (refresh_control_meshes_for_dragged
                { s with
                    working_copy := s.working_copy.set i patch2,
                    drag_begin := some (x, y) })
          | _, _, _ => none
        else
          match s.dragged_point with
          | some (i, _, _) =>
              some (refresh_mesh_for { s with in_drag := false } i)
          | none => none
      else some (s, [])


/-- A concrete two-patch editor scene: both patches are the empty patch
(all control points at the origin), both active, drag state idle, and a
camera capability that unprojects every pixel to the origin — so a press
at any pixel picks control point `(0,0,0)`. -/
def demoSceneTwoPatches : BezierEditorScene where
  working_copy := [BezierPatchParameters.empty, BezierPatchParameters.empty]
  active := [true, true]
  meshes := [⟨[], []⟩, ⟨[], []⟩]
  control_point_models := [[], []]
  control_curve_meshes := [[], []]
  normal_vector_vis := []
  draw_normal_vectors := false
  width := 100
  height := 100
  drag_begin := none
  drag_depth := none
  dragged_point := none
  in_drag := false
  unproject_camera := fun _ _ _ => ⟨0, 0, 0⟩

/-- A scene with no patches at all — every press misses. -/
def demoSceneMiss : BezierEditorScene where
  working_copy := []
  active := []
  meshes := []
  control_point_models := []
  control_curve_meshes := []
  normal_vector_vis := []
  draw_normal_vectors := false
  width := 100
  height := 100
  drag_begin := none
  drag_depth := none
  dragged_point := none
  in_drag := false
  unproject_camera := fun _ _ _ => ⟨5, 5, 5⟩

/-- Like `demoSceneTwoPatches`, but with a drag of control point
`(0,0,0)` in progress (depth `0` captured at the press). -/
def demoSceneDragging : BezierEditorScene where
  working_copy := [BezierPatchParameters.empty, BezierPatchParameters.empty]
  active := [true, true]
  meshes := [⟨[], []⟩, ⟨[], []⟩]
  control_point_models := [[], []]
  control_curve_meshes := [[], []]
  normal_vector_vis := []
  draw_normal_vectors := false
  width := 100
  height := 100
  drag_begin := some (0, 0)
  drag_depth := some 0
  dragged_point := some (0, 0, 0)
  in_drag := true
  unproject_camera := fun _ _ _ => ⟨0, 0, 0⟩

end BezierEditorScene

/-- The concrete failing input for claim C1: four strip vertices whose two
faces have unit normals `(3/5, 4/5, 0)` and `(3/5, −4/5, 0)` (all norms
arising in the computation are rational, so the normalisations are
exact). -/
noncomputable def stripPositions : List RVec3 :=
  [⟨4, -3, 0⟩, ⟨0, 0, 0⟩, ⟨0, 0, 1⟩, ⟨-4, -3, 1⟩]

end LSystems

namespace LSystems

namespace Vec3

@[ext] theorem ext {a b : Vec3} (hx : a.x = b.x) (hy : a.y = b.y)
    (hz : a.z = b.z) : a = b := by
  cases a; cases b; simp_all

@[simp] theorem add_x (a b : Vec3) : (a + b).x = a.x + b.x := rfl
@[simp] theorem add_y (a b : Vec3) : (a + b).y = a.y + b.y := rfl
@[simp] theorem add_z (a b : Vec3) : (a + b).z = a.z + b.z := rfl
@[simp] theorem sub_x (a b : Vec3) : (a - b).x = a.x - b.x := rfl
@[simp] theorem sub_y (a b : Vec3) : (a - b).y = a.y - b.y := rfl
@[simp] theorem sub_z (a b : Vec3) : (a - b).z = a.z - b.z := rfl
@[simp] theorem scale_x (s : ℚ) (a : Vec3) : (a.scale s).x = a.x * s := rfl
@[simp] theorem scale_y (s : ℚ) (a : Vec3) : (a.scale s).y = a.y * s := rfl
@[simp] theorem scale_z (s : ℚ) (a : Vec3) : (a.scale s).z = a.z * s := rfl

end Vec3

namespace RVec3

@[simp] theorem add_def (a1 a2 a3 b1 b2 b3 : ℝ) :
    (RVec3.mk a1 a2 a3) + (RVec3.mk b1 b2 b3) = RVec3.mk (a1 + b1) (a2 + b2) (a3 + b3) := rfl

@[simp] theorem sub_def (a1 a2 a3 b1 b2 b3 : ℝ) :
    (RVec3.mk a1 a2 a3) - (RVec3.mk b1 b2 b3) = RVec3.mk (a1 - b1) (a2 - b2) (a3 - b3) := rfl

end RVec3

namespace RVec3

/-- Evaluation rule for `normalize` when the squared norm is a perfect
square `r²`. -/
theorem normalize_eval (a b c r : ℝ) (hr : 0 ≤ r) (h : a ^ 2 + b ^ 2 + c ^ 2 = r ^ 2) :
    RVec3.normalize ⟨a, b, c⟩ = ⟨a / r, b / r, c / r⟩ := by
  simp only [RVec3.normalize]
  rw [h, Real.sqrt_sq hr]

theorem normalize_340 : RVec3.normalize ⟨3, 4, 0⟩ = ⟨3 / 5, 4 / 5, 0⟩ := by
  rw [normalize_eval 3 4 0 5 (by norm_num) (by norm_num)]
  norm_num

theorem normalize_340n : RVec3.normalize ⟨3, -4, 0⟩ = ⟨3 / 5, -(4 / 5), 0⟩ := by
  rw [normalize_eval 3 (-4) 0 5 (by norm_num) (by norm_num)]
  norm_num

theorem normalize_unit_pos : RVec3.normalize ⟨3 / 5, 4 / 5, 0⟩ = ⟨3 / 5, 4 / 5, 0⟩ := by
  rw [normalize_eval (3 / 5) (4 / 5) 0 1 (by norm_num) (by norm_num)]
  norm_num

theorem normalize_unit_neg :
    RVec3.normalize ⟨3 / 5, -(4 / 5), 0⟩ = ⟨3 / 5, -(4 / 5), 0⟩ := by
  rw [normalize_eval (3 / 5) (-(4 / 5)) 0 1 (by norm_num) (by norm_num)]
  norm_num

theorem normalize_sum : RVec3.normalize ⟨6 / 5, 0, 0⟩ = ⟨1, 0, 0⟩ := by
  rw [normalize_eval (6 / 5) 0 0 (6 / 5) (by norm_num) (by norm_num)]
  norm_num

end RVec3

end LSystems

namespace LSystems

/-- C5: evaluating a Bézier patch at the four corner parameter pairs
`(0,0)`, `(1,0)`, `(0,1)`, `(1,1)` returns exactly the corner control
points `curves[0].control_points[0]`, `curves[0].control_points[3]`,
`curves[3].control_points[0]`, `curves[3].control_points[3]`. -/
theorem bezier_patch_corner_interpolation (p : BezierPatchParameters) :
    p.evaluate 0 0 = p.c0.p0 ∧ p.evaluate 1 0 = p.c0.p3 ∧
    p.evaluate 0 1 = p.c3.p0 ∧ p.evaluate 1 1 = p.c3.p3 := by
  refine ⟨?_, ?_, ?_, ?_⟩ <;>
    · apply Vec3.ext <;>
        simp only [BezierPatchParameters.evaluate, BezierCurveParameters.evaluate,
          BezierCurveParameters.from_points, Vec3.add_x, Vec3.add_y, Vec3.add_z,
          Vec3.scale_x, Vec3.scale_y, Vec3.scale_z] <;>
        ring

open NormalGenerator in
/-- C6: face decomposition yields, for a fan of `n ≥ 3` vertices, exactly
`n − 2` faces all sharing the first index; for a strip, exactly `n − 2`
sliding-window faces `(t, t+1, t+2)`; for a triangle list of `3m`
vertices, exactly `m` contiguous non-overlapping faces
`(3t, 3t+1, 3t+2)`; and a triangle-list count that is not a multiple of 3
aborts — in both the non-indexed and the indexed decomposition (where
face entries are looked up in the index list). -/
theorem face_decomposition_shapes (n m : ℕ) (hn : 3 ≤ n)
    (indices : List ℕ) (hi : 3 ≤ indices.length) :
    (∃ F, calculate_faces .TriangleFan n = some F ∧ F.length = n - 2 ∧
       ∀ f ∈ F, f.1 = 0) ∧
    (∃ F, calculate_faces .TriangleStrip n = some F ∧ F.length = n - 2 ∧
       ∀ t, t < n - 2 → F[t]? = some (t, t + 1, t + 2)) ∧
    (n = 3 * m → ∃ F, calculate_faces .Triangles n = some F ∧ F.length = m ∧
       ∀ t, t < m → F[t]? = some (3 * t, 3 * t + 1, 3 * t + 2)) ∧
    (n % 3 ≠ 0 → calculate_faces .Triangles n = none) ∧
    (∃ F, calculate_indexed_faces .TriangleFan indices = some F ∧
       F.length = indices.length - 2 ∧ ∀ f ∈ F, f.1 = indices.getD 0 0) ∧
    (∃ F, calculate_indexed_faces .TriangleStrip indices = some F ∧
       F.length = indices.length - 2 ∧
       ∀ t, t < indices.length - 2 →
         F[t]? = some (indices.getD t 0, indices.getD (t + 1) 0, indices.getD (t + 2) 0)) ∧
    (indices.length = 3 * m →
       ∃ F, calculate_indexed_faces .Triangles indices = some F ∧ F.length = m ∧
       ∀ t, t < m →
         F[t]? = some (indices.getD (3 * t) 0, indices.getD (3 * t + 1) 0,
           indices.getD (3 * t + 2) 0)) ∧
    (indices.length % 3 ≠ 0 → calculate_indexed_faces .Triangles indices = none) := by
  have hlt : ¬ n < 3 := by omega
  refine ⟨?_, ?_, ?_, ?_, ?_, ?_, ?_, ?_⟩
  · refine ⟨(List.range' 2 (n - 2)).map (fun i => ((0 : ℕ), i - 1, i)),
      by simp [calculate_faces, hlt], by simp, ?_⟩
    intro f hf
    simp only [List.mem_map] at hf
    obtain ⟨i, _, rfl⟩ := hf
    rfl
  · refine ⟨(List.range' 2 (n - 2)).map (fun i => (i - 2, i - 1, i)),
      by simp [calculate_faces, hlt], by simp, ?_⟩
    intro t ht
    simp only [List.getElem?_map, List.getElem?_range', List.length_range', ht,
      if_pos, Option.map_some']
    rw [show 2 + 1 * t - 2 = t from by omega, show 2 + 1 * t - 1 = t + 1 from by omega,
      show 2 + 1 * t = t + 2 from by omega]
  · intro hnm
    have h3 : ¬ n % 3 ≠ 0 := by omega
    refine ⟨(List.range (n / 3)).map (fun t => (3 * t, 3 * t + 1, 3 * t + 2)),
      by simp [calculate_faces, hlt, h3], by simp; omega, ?_⟩
    intro t ht
    have htn : t < n / 3 := by omega
    simp [List.getElem?_map, List.getElem?_range, htn]
  · intro h3
    simp [calculate_faces, hlt, h3]
  · refine ⟨(List.range' 2 (indices.length - 2)).map
        (fun i => (indices.getD 0 0, indices.getD (i - 1) 0, indices.getD i 0)),
      by simp [calculate_indexed_faces], by simp, ?_⟩
    intro f hf
    simp only [List.mem_map] at hf
    obtain ⟨i, _, rfl⟩ := hf
    rfl
  · refine ⟨(List.range' 2 (indices.length - 2)).map
        (fun i => (indices.getD (i - 2) 0, indices.getD (i - 1) 0, indices.getD i 0)),
      by simp [calculate_indexed_faces], by simp, ?_⟩
    intro t ht
    simp only [List.getElem?_map, List.getElem?_range', List.length_range', ht,
      if_pos, Option.map_some']
    rw [show 2 + 1 * t - 2 = t from by omega, show 2 + 1 * t - 1 = t + 1 from by omega,
      show 2 + 1 * t = t + 2 from by omega]
  · intro hnm
    have h3 : ¬ indices.length % 3 ≠ 0 := by omega
    refine ⟨(List.range (indices.length / 3)).map (fun t =>
        (indices.getD (3 * t) 0, indices.getD (3 * t + 1) 0, indices.getD (3 * t + 2) 0)),
      by simp [calculate_indexed_faces, h3], by simp; omega, ?_⟩
    intro t ht
    have htn : t < indices.length / 3 := by omega
    simp [List.getElem?_map, List.getElem?_range, htn]
  · intro h3
    simp [calculate_indexed_faces, h3]

/-- Witness for `face_decomposition_shapes` at `n = 3`, `m = 1`,
`indices = [9, 8, 7]`. -/
theorem face_decomposition_shapes_witness :
    ∃ F, NormalGenerator.calculate_faces .TriangleFan 3 = some F ∧
      F.length = 3 - 2 ∧ ∀ f ∈ F, f.1 = 0 :=
  (face_decomposition_shapes 3 1 (by decide) ([9, 8, 7] : List ℕ) (by decide)).1

end LSystems

namespace LSystems

/-- C7 counterexample: the indexed normal generator does *not* fail
fatally on fewer than 3 indices — on a two-entry index list in strip mode
it publishes a result (the face loop simply produces no faces), refuting
the claim that both variants abort below 3 vertices. -/
theorem generate_indexed_normals_no_min_check :
    (NormalGenerator.generate_indexed_normals .TriangleStrip
      [RVec3.zeros, RVec3.zeros] [0, 1]).isSome = true := by
  have hcif : NormalGenerator.calculate_indexed_faces .TriangleStrip [0, 1] =
      some [] := by decide
  simp only [NormalGenerator.generate_indexed_normals, hcif, Option.some_bind,
    NormalGenerator.generate_face_normals, Option.map_some', List.zip_nil_left,
    List.foldl_nil, Option.isSome_some]

/-- C7 amended: only the non-indexed variant aborts whenever fewer than 3
positions are supplied; the indexed variant has no minimum-count check —
with fewer than 3 indices the fan and strip topologies publish a result
(no faces), and the triangle-list topology aborts exactly when the index
count is not a multiple of 3 (so 1 or 2 abort, 0 succeeds). -/
theorem normal_generator_min_vertex_check (pt : PrimitiveType)
    (positions : List RVec3) (indices : List ℕ)
    (hpos : positions.length < 3) (hidx : indices.length < 3) :
    NormalGenerator.generate_normals pt positions = none ∧
    (NormalGenerator.generate_indexed_normals .TriangleFan positions indices).isSome
      = true ∧
    (NormalGenerator.generate_indexed_normals .TriangleStrip positions indices).isSome
      = true ∧
    ((NormalGenerator.generate_indexed_normals .Triangles positions indices).isSome
      = true ↔ indices.length = 0) := by
  have h2 : indices.length - 2 = 0 := by omega
  refine ⟨?_, ?_, ?_, ?_⟩
  · simp [NormalGenerator.generate_normals, NormalGenerator.calculate_faces, hpos]
  · simp [NormalGenerator.generate_indexed_normals,
      NormalGenerator.calculate_indexed_faces, h2,
      NormalGenerator.generate_face_normals]
  · simp [NormalGenerator.generate_indexed_normals,
      NormalGenerator.calculate_indexed_faces, h2,
      NormalGenerator.generate_face_normals]
  · by_cases h0 : indices.length % 3 = 0
    · have hz : indices.length = 0 := by omega
      simp [NormalGenerator.generate_indexed_normals,
        NormalGenerator.calculate_indexed_faces, hz,
        NormalGenerator.generate_face_normals]
    · have hz : indices.length ≠ 0 := by omega
      simp [NormalGenerator.generate_indexed_normals,
        NormalGenerator.calculate_indexed_faces, h0, hz]

/-- Witness for `normal_generator_min_vertex_check` at empty inputs. -/
theorem normal_generator_min_vertex_check_witness :
    NormalGenerator.generate_normals .TriangleFan ([] : List RVec3) = none ∧
    (NormalGenerator.generate_indexed_normals .TriangleFan ([] : List RVec3)
      ([] : List ℕ)).isSome = true ∧
    (NormalGenerator.generate_indexed_normals .TriangleStrip ([] : List RVec3)
      ([] : List ℕ)).isSome = true ∧
    ((NormalGenerator.generate_indexed_normals .Triangles ([] : List RVec3)
      ([] : List ℕ)).isSome = true ↔ ([] : List ℕ).length = 0) :=
  normal_generator_min_vertex_check .TriangleFan [] []
    (by simp) (by simp)

/-- C1: the failing input for the indexed normal generator.  On the
identity-indexed triangle strip `stripPositions` the non-indexed variant
accumulates (`+=`) the face normals, so the two interior vertices receive
the normalised sum `(1, 0, 0)`; the indexed variant assigns (`=`) instead
of accumulating, so they keep only the last face's normal
`(3/5, −4/5, 0)`.  The two variants therefore disagree on equivalent
inputs (identity indices), contradicting the claim; the source's own
comment (`TODO normally this would be +=`) shows the assignment is a
slip. -/
theorem generate_indexed_normals_overwrite_bug :
    NormalGenerator.generate_normals .TriangleStrip stripPositions =
      some [⟨3 / 5, 4 / 5, 0⟩, ⟨1, 0, 0⟩, ⟨1, 0, 0⟩, ⟨3 / 5, -(4 / 5), 0⟩] ∧
    NormalGenerator.generate_indexed_normals .TriangleStrip stripPositions [0, 1, 2, 3] =
      some [⟨3 / 5, 4 / 5, 0⟩, ⟨3 / 5, -(4 / 5), 0⟩, ⟨3 / 5, -(4 / 5), 0⟩,
        ⟨3 / 5, -(4 / 5), 0⟩] ∧
    NormalGenerator.generate_normals .TriangleStrip stripPositions ≠
      NormalGenerator.generate_indexed_normals .TriangleStrip stripPositions [0, 1, 2, 3] := by
  have hcf : NormalGenerator.calculate_faces .TriangleStrip 4 =
      some [((0 : ℕ), (1 : ℕ), (2 : ℕ)), (1, 2, 3)] := by decide
  have hcif : NormalGenerator.calculate_indexed_faces .TriangleStrip [0, 1, 2, 3] =
      some [((0 : ℕ), (1 : ℕ), (2 : ℕ)), (1, 2, 3)] := by decide
  have hgfn : NormalGenerator.generate_face_normals stripPositions
      [((0 : ℕ), (1 : ℕ), (2 : ℕ)), (1, 2, 3)] =
      some [⟨3 / 5, 4 / 5, 0⟩, ⟨3 / 5, -(4 / 5), 0⟩] := by
    simp only [stripPositions, NormalGenerator.generate_face_normals]
    norm_num [RVec3.cross, RVec3.sub_def]
    rw [show RVec3.mk (3 : ℝ) 4 0 = ⟨3, 4, 0⟩ from rfl]
    rw [RVec3.normalize_340, RVec3.normalize_340n]
    exact ⟨rfl, rfl⟩
  have hlen : stripPositions.length = 4 := rfl
  refine ⟨?_, ?_, ?_⟩
  · simp only [NormalGenerator.generate_normals, hlen]
    rw [hcf]
    simp only [Option.some_bind]
    rw [hgfn]
    simp only [Option.map_some']
    simp only [List.zip_cons_cons, List.zip_nil_right, List.zip_nil_left,
      List.foldl_cons, List.foldl_nil, NormalGenerator.accumulateFace,
      List.set, List.getD, List.replicate, List.getElem?_cons_zero,
      List.getElem?_cons_succ, List.map_cons, List.map_nil]
    norm_num [RVec3.zeros]
    rw [RVec3.normalize_unit_pos]
    exact ⟨rfl, by rw [RVec3.normalize_sum], by rw [RVec3.normalize_unit_neg]⟩
  · simp only [NormalGenerator.generate_indexed_normals, hlen]
    rw [hcif]
    simp only [Option.some_bind]
    rw [hgfn]
    simp only [Option.map_some']
    simp only [List.zip_cons_cons, List.zip_nil_right, List.zip_nil_left,
      List.foldl_cons, List.foldl_nil, NormalGenerator.overwriteFace,
      List.set, List.replicate, List.map_cons, List.map_nil]
    norm_num
    rw [RVec3.normalize_unit_pos, RVec3.normalize_unit_neg]
    exact ⟨rfl, rfl⟩
  · intro h
    rw [NormalGenerator.generate_normals, NormalGenerator.generate_indexed_normals,
      hlen, hcf, hcif] at h
    simp only [Option.some_bind] at h
    rw [hgfn] at h
    simp only [Option.map_some'] at h
    simp only [List.zip_cons_cons, List.zip_nil_right, List.zip_nil_left,
      List.foldl_cons, List.foldl_nil, NormalGenerator.accumulateFace,
      NormalGenerator.overwriteFace,
      List.set, List.getD, List.replicate, List.getElem?_cons_zero,
      List.getElem?_cons_succ, List.map_cons, List.map_nil] at h
    norm_num [RVec3.zeros] at h
    rw [RVec3.normalize_sum, RVec3.normalize_unit_neg] at h
    have hx : (1 : ℝ) = 3 / 5 := congrArg RVec3.x h
    norm_num at hx

end LSystems

namespace LSystems

/-! ### Helper lemmas on `findSome?`, used to relate the nested picking
loops to the flat enumeration order. -/

theorem findSome?_guard_eq (p : α → Bool) (g : α → β) (l : List α) :
    l.findSome? (fun a => if p a then some (g a) else none) = (l.find? p).map g := by
  induction l with
  | nil => rfl
  | cons a t ih =>
    by_cases h : p a <;> simp [List.findSome?_cons, List.find?_cons, h, ih]

theorem findSome?_append_eq (l1 l2 : List α) (f : α → Option β) :
    (l1 ++ l2).findSome? f =
      match l1.findSome? f with
      | some b => some b
      | none => l2.findSome? f := by
  induction l1 with
  | nil => simp
  | cons a t ih =>
    cases h : f a <;> simp [List.findSome?_cons, h, ih]

theorem findSome?_flatMap_eq (l : List α) (f : α → List β) (g : β → Option γ) :
    (l.flatMap f).findSome? g = l.findSome? (fun a => (f a).findSome? g) := by
  induction l with
  | nil => rfl
  | cons a t ih =>
    rw [List.flatMap_cons, findSome?_append_eq]
    cases h : (f a).findSome? g <;> simp [List.findSome?_cons, h, ih]

theorem findSome?_congr_mem (l : List α) (f g : α → Option β)
    (h : ∀ a ∈ l, f a = g a) : l.findSome? f = l.findSome? g := by
  induction l with
  | nil => rfl
  | cons a t ih =>
    have ha := h a (List.mem_cons_self a t)
    simp only [List.findSome?_cons, ha]
    cases g a with
    | none => exact ih (fun b hb => h b (List.mem_cons_of_mem a hb))
    | some b => rfl

theorem flatMap_filter_eq (l : List α) (p : α → Bool) (F : α → List β) :
    (l.filter p).flatMap F = l.flatMap (fun a => if p a then F a else []) := by
  induction l with
  | nil => rfl
  | cons a t ih =>
    by_cases h : p a <;> simp [List.filter_cons, h, ih]

end LSystems

namespace LSystems

namespace BezierEditorScene

/-- C3: the picking test selects exactly the first control point, in the
fixed nested enumeration order over active patches, whose fixed-radius
sphere intersects the sphere around the unprojected cursor point (no
nearest-distance tie-break), returning it with the depth that was read at
the cursor; and a press whose picking test misses leaves the scene state
completely unchanged and triggers no refresh. -/
theorem find_clicked_picks_first_in_order (s : BezierEditorScene)
    (x y : ℕ) (depth : ℚ) :
    find_clicked_control_point s x y depth =
      ((pickOrder s).find? (hitsPoint s (s.unproject x y depth))).map
        (fun t => (depth, t)) ∧
    (find_clicked_control_point s x y depth = none →
      handle_event s (.mouseButtonPress x y depth) = some (s, [])) := by
  constructor
  · show s.working_copy.enum.findSome? _ = _
    have hA : s.working_copy.enum.findSome? (fun ip =>
        if (s.active.getD ip.1 false) = false then none
        else (List.range 4).findSome? (fun j =>
          (List.range 4).findSome? (fun k =>
            if ballsIntersect (s.unproject x y depth) ((ip.2.curve j).point k)
            then some (depth, ip.1, j, k) else none))) =
      s.working_copy.enum.findSome? (fun ip =>
        if (s.active.getD ip.1 false) = false then none
        else (List.range 4).findSome? (fun j =>
          (List.range 4).findSome? (fun k =>
            if hitsPoint s (s.unproject x y depth) (ip.1, j, k)
            then some (depth, ip.1, j, k) else none))) := by
      apply findSome?_congr_mem
      intro ip hip
      have hget : s.working_copy[ip.1]? = some ip.2 := by
        cases ip
        exact List.mk_mem_enum_iff_getElem?.mp hip
      have hgd : s.working_copy.getD ip.1 BezierPatchParameters.empty = ip.2 := by
        rw [List.getD_eq_getElem?_getD, hget, Option.getD_some]
      simp only [hitsPoint, hgd]
    rw [hA]
    have hF : s.working_copy.enum.findSome? (fun ip =>
        if (s.active.getD ip.1 false) = false then none
        else (List.range 4).findSome? (fun j =>
          (List.range 4).findSome? (fun k =>
            if hitsPoint s (s.unproject x y depth) (ip.1, j, k)
            then some (depth, ip.1, j, k) else none))) =
      (List.range s.working_copy.length).findSome? (fun i =>
        if (s.active.getD i false) = false then none
        else (List.range 4).findSome? (fun j =>
          (List.range 4).findSome? (fun k =>
            if hitsPoint s (s.unproject x y depth) (i, j, k)
            then some (depth, i, j, k) else none))) := by
      rw [← List.enum_map_fst s.working_copy, List.findSome?_map]
      rfl
    rw [hF]
    have hblock : ∀ i : ℕ,
        (if (s.active.getD i false) = false then none
         else (List.range 4).findSome? (fun j =>
           (List.range 4).findSome? (fun k =>
             if hitsPoint s (s.unproject x y depth) (i, j, k)
             then some (depth, i, j, k) else none))) =
        ((if s.active.getD i false then (List.range 4).flatMap (fun j =>
            (List.range 4).map (fun k => (i, j, k))) else []).findSome?
          (fun t => if hitsPoint s (s.unproject x y depth) t
            then some (depth, t) else none)) := by
      intro i
      cases hb : s.active.getD i false with
      | true =>
        rw [if_neg (by simp), if_pos rfl, findSome?_flatMap_eq]
        refine findSome?_congr_mem _ _ _ (fun j _ => ?_)
        rw [List.findSome?_map]
        rfl
      | false =>
        rw [if_pos rfl, if_neg (by simp)]
        rfl
    rw [findSome?_congr_mem _ _ _ (fun i _ => hblock i),
      ← findSome?_flatMap_eq, ← flatMap_filter_eq, findSome?_guard_eq]
    rfl
  · intro h
    simp only [handle_event, h]

end BezierEditorScene

end LSystems

namespace LSystems

theorem BezierCurveParameters.point_setPoint_self (c : BezierCurveParameters)
    (kk : ℕ) (v : Vec3) (hk : kk < 4) : (c.setPoint kk v).point kk = v := by
  interval_cases kk <;> rfl

theorem BezierCurveParameters.point_setPoint_ne (c : BezierCurveParameters)
    (kk kk2 : ℕ) (v : Vec3) (hk : kk < 4) (hk2 : kk2 < 4) (hne : kk2 ≠ kk) :
    (c.setPoint kk v).point kk2 = c.point kk2 := by
  interval_cases kk <;> interval_cases kk2 <;>
    first
    | rfl
    | exact absurd rfl hne

theorem BezierPatchParameters.curve_setCurve_self (p : BezierPatchParameters)
    (jj : ℕ) (c : BezierCurveParameters) (hj : jj < 4) :
    (p.setCurve jj c).curve jj = c := by
  interval_cases jj <;> rfl

theorem BezierPatchParameters.curve_setCurve_ne (p : BezierPatchParameters)
    (jj jj2 : ℕ) (c : BezierCurveParameters) (hj : jj < 4) (hj2 : jj2 < 4)
    (hne : jj2 ≠ jj) : (p.setCurve jj c).curve jj2 = p.curve jj2 := by
  interval_cases jj <;> interval_cases jj2 <;>
    first
    | rfl
    | exact absurd rfl hne

theorem List.getD_set_self (l : List α) (i : ℕ) (v d : α) (h : i < l.length) :
    (l.set i v).getD i d = v := by
  rw [List.getD_eq_getElem?_getD, List.getElem?_set_eq h, Option.getD_some]

namespace BezierEditorScene

/-- Helper: full characterisation of one in-viewport cursor-move step of
an ongoing drag (shared by the drag-step and drag-lifecycle theorems). -/
theorem cursor_move_step_spec (s : BezierEditorScene)
    (x y i j k : ℕ) (d : ℚ)
    (hdrag : s.in_drag = true) (hpt : s.dragged_point = some (i, j, k))
    (hdepth : s.drag_depth = some d) (hbegin : s.drag_begin.isSome = true)
    (hi : i < s.working_copy.length) (hj : j < 4) (hk : k < 4)
    (hx : x ≤ s.width) (hy : y ≤ s.height) :
    ∃ s2, handle_event s (.cursorPos x y) = some (s2, [RefreshEffect.controls i]) ∧
      ((s2.working_copy.getD i BezierPatchParameters.empty).curve j).point k =
        s.unproject x y d ∧
      (∀ j2 k2, j2 < 4 → k2 < 4 → (j2, k2) ≠ (j, k) →
        ((s2.working_copy.getD i BezierPatchParameters.empty).curve j2).point k2 =
        ((s.working_copy.getD i BezierPatchParameters.empty).curve j2).point k2) ∧
      (∀ i2, i2 ≠ i →
        s2.working_copy[i2]? = s.working_copy[i2]? ∧
        s2.control_point_models[i2]? = s.control_point_models[i2]? ∧
        s2.control_curve_meshes[i2]? = s.control_curve_meshes[i2]?) ∧
      s2.meshes = s.meshes ∧
      s2.normal_vector_vis = s.normal_vector_vis ∧
      s2.control_point_models = s.control_point_models.set i
        (create_control_point_model (s2.working_copy.getD i BezierPatchParameters.empty)) ∧
      s2.control_curve_meshes = s.control_curve_meshes.set i
        (create_control_curve_mesh (s2.working_copy.getD i BezierPatchParameters.empty)) ∧
      s2.in_drag = true ∧ s2.dragged_point = s.dragged_point ∧
      s2.drag_depth = s.drag_depth ∧ s2.drag_begin = some (x, y) ∧
      s2.working_copy.length = s.working_copy.length ∧
      s2.width = s.width ∧ s2.height = s.height := by
  obtain ⟨b, hb⟩ := Option.isSome_iff_exists.mp hbegin
  simp only [handle_event, hdrag, hb, hdepth, hpt,
    refresh_control_meshes_for_dragged, if_pos (And.intro hx hy), if_pos rfl]
  refine ⟨_, rfl, ?_, ?_, ?_, rfl, rfl, ?_, ?_, rfl, rfl, rfl, rfl,
    by simp, rfl, rfl⟩
  · rw [List.getD_set_self _ _ _ _ hi, BezierPatchParameters.curve_setCurve_self _ _ _ hj,
      BezierCurveParameters.point_setPoint_self _ _ _ hk]
  · intro j2 k2 hj2 hk2 hne
    rw [List.getD_set_self _ _ _ _ hi]
    by_cases hjeq : j2 = j
    · subst hjeq
      have hkne : k2 ≠ k := by
        intro hkeq
        exact hne (by rw [hkeq])
      rw [BezierPatchParameters.curve_setCurve_self _ _ _ hj,
        BezierCurveParameters.point_setPoint_ne _ _ _ _ hk hk2 hkne]
    · rw [BezierPatchParameters.curve_setCurve_ne _ _ _ _ hj hj2 hjeq]
  · intro i2 hne
    refine ⟨?_, ?_, ?_⟩ <;>
      exact List.getElem?_set_ne (fun hcon => hne hcon.symm)
  · rw [List.getD_set_self _ _ _ _ hi]
  · rw [List.getD_set_self _ _ _ _ hi]

end BezierEditorScene

end LSystems

namespace LSystems

namespace BezierEditorScene

/-- C8: a cursor-move step of an ongoing drag of control point `(i,j,k)`
inside the viewport touches only patch `i`'s data: the dragged point is
moved to the unprojection of the new cursor at the captured depth, and
patch `i`'s control-point model and control-curve mesh are rebuilt (a
single `controls i` refresh); every other patch's parameters and control
meshes, every other control point of patch `i`, all surface meshes and
all normal visualisations are left unchanged — the whole scene is not
rebuilt. -/
theorem drag_move_updates_only_owner (s : BezierEditorScene)
    (x y i j k : ℕ) (d : ℚ)
    (hdrag : s.in_drag = true) (hpt : s.dragged_point = some (i, j, k))
    (hdepth : s.drag_depth = some d) (hbegin : s.drag_begin.isSome = true)
    (hi : i < s.working_copy.length) (hj : j < 4) (hk : k < 4)
    (hx : x ≤ s.width) (hy : y ≤ s.height) :
    ∃ s2, handle_event s (.cursorPos x y) = some (s2, [RefreshEffect.controls i]) ∧
      ((s2.working_copy.getD i BezierPatchParameters.empty).curve j).point k =
        s.unproject x y d ∧
      (∀ j2 k2, j2 < 4 → k2 < 4 → (j2, k2) ≠ (j, k) →
        ((s2.working_copy.getD i BezierPatchParameters.empty).curve j2).point k2 =
        ((s.working_copy.getD i BezierPatchParameters.empty).curve j2).point k2) ∧
      (∀ i2, i2 ≠ i →
        s2.working_copy[i2]? = s.working_copy[i2]? ∧
        s2.control_point_models[i2]? = s.control_point_models[i2]? ∧
        s2.control_curve_meshes[i2]? = s.control_curve_meshes[i2]?) ∧
      s2.meshes = s.meshes ∧
      s2.normal_vector_vis = s.normal_vector_vis ∧
      s2.control_point_models = s.control_point_models.set i
        (create_control_point_model (s2.working_copy.getD i BezierPatchParameters.empty)) ∧
      s2.control_curve_meshes = s.control_curve_meshes.set i
        (create_control_curve_mesh (s2.working_copy.getD i BezierPatchParameters.empty)) ∧
      s2.in_drag = true ∧ s2.dragged_point = s.dragged_point ∧
      s2.drag_depth = s.drag_depth ∧ s2.drag_begin = some (x, y) ∧
      s2.working_copy.length = s.working_copy.length ∧
      s2.width = s.width ∧ s2.height = s.height :=
  cursor_move_step_spec s x y i j k d hdrag hpt hdepth hbegin hi hj hk hx hy

/-- C2 (amended): across a drag lifecycle, the press captures the depth
`d` read at the press pixel; a cursor move inside the viewport overwrites
the selected control point with `unproject(x1, y1, d)` at that *captured*
depth; a release leaves the control point at the last moved position and
performs exactly one refresh pass — but that pass re-tessellates the
surface meshes of *all* patches (the release path calls the full
`refresh_meshes`, not the single-patch refresh the claim describes). -/
theorem drag_lifecycle_capture_and_release (s : BezierEditorScene)
    (x0 y0 x1 y1 i j k : ℕ) (d : ℚ)
    (hfind : find_clicked_control_point s x0 y0 d = some (d, i, j, k))
    (hx1 : x1 ≤ s.width) (hy1 : y1 ≤ s.height)
    (hi : i < s.working_copy.length) (hj : j < 4) (hk : k < 4) :
    ∃ s1 s2 s3 fx,
      handle_event s (.mouseButtonPress x0 y0 d) = some (s1, []) ∧
      s1.drag_depth = some d ∧ s1.in_drag = true ∧
      s1.dragged_point = some (i, j, k) ∧ s1.drag_begin = some (x0, y0) ∧
      s1.working_copy = s.working_copy ∧ s1.meshes = s.meshes ∧
      handle_event s1 (.cursorPos x1 y1) = some (s2, [RefreshEffect.controls i]) ∧
      ((s2.working_copy.getD i BezierPatchParameters.empty).curve j).point k =
        s1.unproject x1 y1 d ∧
      s2.drag_depth = some d ∧
      handle_event s2 .mouseButtonRelease = some (s3, fx) ∧
      s3.working_copy = s2.working_copy ∧
      s3.in_drag = false ∧
      s3.meshes = s2.working_copy.map create_mesh ∧
      (∀ t, t < s.working_copy.length → RefreshEffect.surface t ∈ fx) := by
  have hpress : handle_event s (.mouseButtonPress x0 y0 d) =
      some ({ s with
        drag_begin := some (x0, y0)
        drag_depth := some d
        in_drag := true
        dragged_point := some (i, j, k) }, []) := by
    simp only [handle_event, hfind]
  refine ⟨{ s with
      drag_begin := some (x0, y0)
      drag_depth := some d
      in_drag := true
      dragged_point := some (i, j, k) }, ?_⟩
  obtain ⟨s2, hmove, hpoint, hothers, hpatches, hmesh, hnvv, hcpm, hccm,
      hdrag2, hpt2, hdd2, hdb2, hlen2, hw2, hh2⟩ :=
    cursor_move_step_spec
      { s with
        drag_begin := some (x0, y0)
        drag_depth := some d
        in_drag := true
        dragged_point := some (i, j, k) }
      x1 y1 i j k d rfl rfl rfl rfl hi hj hk hx1 hy1
  refine ⟨s2, (refresh_meshes { s2 with in_drag := false }).1,
    (refresh_meshes { s2 with in_drag := false }).2,
    hpress, rfl, rfl, rfl, rfl, rfl, rfl, hmove, hpoint, hdd2, ?_, rfl, rfl, rfl, ?_⟩
  · simp [handle_event, hdrag2]
  · intro t ht
    have ht2 : t < s2.working_copy.length := by
      rw [hlen2]
      exact ht
    refine List.mem_append.mpr (Or.inl ?_)
    refine List.mem_flatMap.mpr ⟨t, List.mem_range.mpr ht2, ?_⟩
    exact List.mem_append.mpr (Or.inl (List.mem_singleton.mpr rfl))

end BezierEditorScene

end LSystems

namespace LSystems

namespace BezierEditorScene

/-- C2 counterexample: a press on `demoSceneTwoPatches` selects control
point `(0,0,0)` of patch 0, yet the release that ends the drag performs a
refresh pass that re-tessellates the surface mesh of the *untouched*
patch 1 as well (`surface 1` is among the triggered refresh actions) —
refuting "only the affected patch's surface mesh is re-tessellated". -/
theorem demo_press_hit :
    find_clicked_control_point demoSceneTwoPatches 0 0 0 = some (0, 0, 0, 0) := by
  have hr4 : List.range 4 = [0, 1, 2, 3] := rfl
  simp [find_clicked_control_point, demoSceneTwoPatches, unproject,
    ballsIntersect, Vec3.distSq, BezierPatchParameters.empty,
    BezierCurveParameters.empty, BezierPatchParameters.curve,
    BezierCurveParameters.point, Vec3.zeros, List.findSome?, List.enum,
    List.enumFrom, hr4]

theorem release_rebuilds_unaffected_patch :
    ∃ r1, handle_event demoSceneTwoPatches (.mouseButtonPress 0 0 0) = some r1 ∧
      r1.1.dragged_point = some (0, 0, 0) ∧ r1.2 = [] ∧
      ∃ r2, handle_event r1.1 .mouseButtonRelease = some r2 ∧
        RefreshEffect.surface 1 ∈ r2.2 := by
  have hfind : find_clicked_control_point demoSceneTwoPatches 0 0 0 =
      some (0, 0, 0, 0) := demo_press_hit
  have hpress : handle_event demoSceneTwoPatches (.mouseButtonPress 0 0 0) =
      some ({ demoSceneTwoPatches with
        drag_begin := some (0, 0)
        drag_depth := some 0
        in_drag := true
        dragged_point := some (0, 0, 0) }, []) := by
    simp only [handle_event, hfind]
  refine ⟨_, hpress, rfl, rfl, ?_⟩
  refine ⟨refresh_meshes { demoSceneTwoPatches with
      drag_begin := some (0, 0)
      drag_depth := some 0
      in_drag := false
      dragged_point := some (0, 0, 0) }, rfl, ?_⟩
  decide

/-- Witness for `drag_lifecycle_capture_and_release` on
`demoSceneTwoPatches`: press at `(0,0)` with depth `0`, move to `(1,1)`,
release. -/
theorem drag_lifecycle_capture_and_release_witness :
    ∃ s1 s2 s3 fx,
      handle_event demoSceneTwoPatches (.mouseButtonPress 0 0 0) = some (s1, []) ∧
      s1.drag_depth = some 0 ∧ s1.in_drag = true ∧
      s1.dragged_point = some (0, 0, 0) ∧ s1.drag_begin = some (0, 0) ∧
      s1.working_copy = demoSceneTwoPatches.working_copy ∧
      s1.meshes = demoSceneTwoPatches.meshes ∧
      handle_event s1 (.cursorPos 1 1) = some (s2, [RefreshEffect.controls 0]) ∧
      ((s2.working_copy.getD 0 BezierPatchParameters.empty).curve 0).point 0 =
        s1.unproject 1 1 0 ∧
      s2.drag_depth = some 0 ∧
      handle_event s2 .mouseButtonRelease = some (s3, fx) ∧
      s3.working_copy = s2.working_copy ∧
      s3.in_drag = false ∧
      s3.meshes = s2.working_copy.map create_mesh ∧
      (∀ t, t < demoSceneTwoPatches.working_copy.length →
        RefreshEffect.surface t ∈ fx) :=
  drag_lifecycle_capture_and_release demoSceneTwoPatches 0 0 1 1 0 0 0 0
    demo_press_hit (by decide) (by decide) (by decide) (by decide) (by decide)

/-- Witness for `find_clicked_picks_first_in_order` on `demoSceneMiss` at
pixel `(0,0)` with depth `0` (a pick miss). -/
theorem find_clicked_picks_first_in_order_witness :
    (find_clicked_control_point demoSceneMiss 0 0 0 =
      ((pickOrder demoSceneMiss).find?
        (hitsPoint demoSceneMiss (demoSceneMiss.unproject 0 0 0))).map
        (fun t => ((0 : ℚ), t))) ∧
    handle_event demoSceneMiss (.mouseButtonPress 0 0 0) =
      some (demoSceneMiss, []) :=
  ⟨(find_clicked_picks_first_in_order demoSceneMiss 0 0 0).1,
   (find_clicked_picks_first_in_order demoSceneMiss 0 0 0).2 rfl⟩

/-- Witness for `drag_move_updates_only_owner` on `demoSceneDragging`:
move to `(1,1)` during the drag of `(0,0,0)`. -/
theorem drag_move_updates_only_owner_witness :
    ∃ s2, handle_event demoSceneDragging (.cursorPos 1 1) =
        some (s2, [RefreshEffect.controls 0]) ∧
      ((s2.working_copy.getD 0 BezierPatchParameters.empty).curve 0).point 0 =
        demoSceneDragging.unproject 1 1 0 ∧
      (∀ j2 k2, j2 < 4 → k2 < 4 → (j2, k2) ≠ (0, 0) →
        ((s2.working_copy.getD 0 BezierPatchParameters.empty).curve j2).point k2 =
        ((demoSceneDragging.working_copy.getD 0 BezierPatchParameters.empty).curve j2).point k2) ∧
      (∀ i2, i2 ≠ 0 →
        s2.working_copy[i2]? = demoSceneDragging.working_copy[i2]? ∧
        s2.control_point_models[i2]? = demoSceneDragging.control_point_models[i2]? ∧
        s2.control_curve_meshes[i2]? = demoSceneDragging.control_curve_meshes[i2]?) ∧
      s2.meshes = demoSceneDragging.meshes ∧
      s2.normal_vector_vis = demoSceneDragging.normal_vector_vis ∧
      s2.control_point_models = demoSceneDragging.control_point_models.set 0
        (create_control_point_model (s2.working_copy.getD 0 BezierPatchParameters.empty)) ∧
      s2.control_curve_meshes = demoSceneDragging.control_curve_meshes.set 0
        (create_control_curve_mesh (s2.working_copy.getD 0 BezierPatchParameters.empty)) ∧
      s2.in_drag = true ∧ s2.dragged_point = demoSceneDragging.dragged_point ∧
      s2.drag_depth = demoSceneDragging.drag_depth ∧
      s2.drag_begin = some (1, 1) ∧
      s2.working_copy.length = demoSceneDragging.working_copy.length ∧
      s2.width = demoSceneDragging.width ∧ s2.height = demoSceneDragging.height :=
  drag_move_updates_only_owner demoSceneDragging 1 1 0 0 0 0
    rfl rfl rfl rfl (by decide) (by decide) (by decide) (by decide) (by decide)

end BezierEditorScene

end LSystems

namespace LSystems

/-! ### Write-sequence lemmas for the tessellation loops. -/

theorem applyWrites_cons (l : List α) (w : ℕ × α) (ws : List (ℕ × α)) :
    applyWrites l (w :: ws) = applyWrites (l.set w.1 w.2) ws := rfl

theorem applyWrites_append (l : List α) (ws1 ws2 : List (ℕ × α)) :
    applyWrites l (ws1 ++ ws2) = applyWrites (applyWrites l ws1) ws2 := by
  simp [applyWrites, List.foldl_append]

theorem applyWrites_length (ws : List (ℕ × α)) (l : List α) :
    (applyWrites l ws).length = l.length := by
  induction ws generalizing l with
  | nil => rfl
  | cons w t ih => rw [applyWrites_cons, ih, List.length_set]

theorem applyWrites_getElem_ne (ws : List (ℕ × α)) (l : List α) (i : ℕ)
    (h : ∀ w ∈ ws, w.1 ≠ i) : (applyWrites l ws)[i]? = l[i]? := by
  induction ws generalizing l with
  | nil => rfl
  | cons w t ih =>
    rw [applyWrites_cons, ih _ (fun w2 hw2 => h w2 (List.mem_cons_of_mem w hw2)),
      List.getElem?_set_ne (h w (List.mem_cons_self w t))]

theorem applyWrites_getElem_unique (ws : List (ℕ × α)) (l : List α) (i : ℕ) (v : α)
    (hmem : (i, v) ∈ ws) (huniq : ∀ w ∈ ws, w.1 = i → w.2 = v)
    (hlen : i < l.length) : (applyWrites l ws)[i]? = some v := by
  induction ws generalizing l with
  | nil => cases hmem
  | cons w t ih =>
    rw [applyWrites_cons]
    by_cases hit : ∃ v2, (i, v2) ∈ t
    · obtain ⟨v2, hv2⟩ := hit
      have hv2v : v2 = v := huniq (i, v2) (List.mem_cons_of_mem w hv2) rfl
      subst hv2v
      exact ih _ hv2 (fun w2 hw2 => huniq w2 (List.mem_cons_of_mem w hw2))
        (by rw [List.length_set]; exact hlen)
    · have hw : w = (i, v) := by
        rcases List.mem_cons.mp hmem with h1 | h1
        · exact h1.symm
        · exact absurd ⟨v, h1⟩ hit
      subst hw
      rw [applyWrites_getElem_ne t _ i
        (fun w2 hw2 => fun hcon => hit ⟨w2.2, by rw [← hcon]; exact hw2⟩)]
      exact List.getElem?_set_self hlen

theorem foldl_set_eq_applyWrites (r : List β) (idx : β → ℕ) (g : β → α) (l : List α) :
    r.foldl (fun acc b => acc.set (idx b) (g b)) l =
      applyWrites l (r.map (fun b => (idx b, g b))) := by
  induction r generalizing l with
  | nil => rfl
  | cons b t ih => simp only [List.foldl_cons, List.map_cons, applyWrites_cons, ih]

theorem foldl_applyWrites_eq (r : List β) (wl : β → List (ℕ × α)) (l : List α) :
    r.foldl (fun acc b => applyWrites acc (wl b)) l = applyWrites l (r.flatMap wl) := by
  induction r generalizing l with
  | nil => rfl
  | cons b t ih => simp only [List.foldl_cons, List.flatMap_cons, applyWrites_append, ih]

theorem grid_index_inj (c x1 x2 y1 y2 : ℕ) (hx1 : x1 < c) (hx2 : x2 < c)
    (h : y1 * c + x1 = y2 * c + x2) : x1 = x2 ∧ y1 = y2 := by
  have hm1 : (y1 * c + x1) % c = x1 := by
    rw [Nat.mul_comm, Nat.mul_add_mod]
    exact Nat.mod_eq_of_lt hx1
  have hm2 : (y2 * c + x2) % c = x2 := by
    rw [Nat.mul_comm, Nat.mul_add_mod]
    exact Nat.mod_eq_of_lt hx2
  have hx : x1 = x2 := by rw [← hm1, ← hm2, h]
  refine ⟨hx, ?_⟩
  subst hx
  have hy : y1 * c = y2 * c := by omega
  have hc : 0 < c := by omega
  exact Nat.eq_of_mul_eq_mul_right hc hy

theorem initialVertices_length (rows cols : ℕ) :
    (PlaneGeometry.initialVertices rows cols).length = (rows + 1) * (cols + 1) := by
  rw [PlaneGeometry.initialVertices]
  have hinner : ∀ (y : ℕ) (acc : List Vec3),
      ((List.range (cols + 1)).foldl (fun acc2 x =>
        acc2.set (y * (cols + 1) + x)
          ⟨(x : ℚ) / (cols : ℚ), (y : ℚ) / (rows : ℚ), 0⟩) acc).length = acc.length := by
    intro y acc
    rw [foldl_set_eq_applyWrites, applyWrites_length]
  have houter : ∀ (r : List ℕ) (acc : List Vec3),
      (r.foldl (fun acc y =>
        (List.range (cols + 1)).foldl (fun acc2 x =>
          acc2.set (y * (cols + 1) + x)
            ⟨(x : ℚ) / (cols : ℚ), (y : ℚ) / (rows : ℚ), 0⟩) acc) acc).length
        = acc.length := by
    intro r
    induction r with
    | nil => intro acc; rfl
    | cons a t ih =>
      intro acc
      rw [List.foldl_cons, ih, hinner]
  rw [houter, List.length_replicate]

end LSystems

namespace LSystems

theorem bezier_positions_eq (p : BezierPatchParameters) (rows cols : ℕ) :
    (BezierGeometry.new p rows cols).positions =
      applyWrites (PlaneGeometry.initialVertices rows cols)
        ((List.range (cols + 1)).flatMap (fun x => (List.range (rows + 1)).map
          (fun y => (y * (cols + 1) + x,
            p.evaluate ((x : ℚ) / (cols : ℚ)) ((y : ℚ) / (rows : ℚ)))))) := by
  have hfun : (fun (acc : List Vec3) (x : ℕ) =>
      (List.range (rows + 1)).foldl (fun acc2 (y : ℕ) =>
        PlaneGeometry.set_vertex acc2 (y * (cols + 1) + x)
          ((BezierCurveParameters.from_points
            (p.c0.evaluate ((x : ℚ) / (cols : ℚ)))
            (p.c1.evaluate ((x : ℚ) / (cols : ℚ)))
            (p.c2.evaluate ((x : ℚ) / (cols : ℚ)))
            (p.c3.evaluate ((x : ℚ) / (cols : ℚ)))).evaluate
              ((y : ℚ) / (rows : ℚ)))) acc) =
      (fun (acc : List Vec3) (x : ℕ) =>
        applyWrites acc ((List.range (rows + 1)).map
          (fun y => (y * (cols + 1) + x,
            p.evaluate ((x : ℚ) / (cols : ℚ)) ((y : ℚ) / (rows : ℚ)))))) := by
    funext acc x
    exact foldl_set_eq_applyWrites (List.range (rows + 1))
      (fun y => y * (cols + 1) + x)
      (fun y => p.evaluate ((x : ℚ) / (cols : ℚ)) ((y : ℚ) / (rows : ℚ))) acc
  show (List.range (cols + 1)).foldl _ (PlaneGeometry.initialVertices rows cols) = _
  rw [hfun, foldl_applyWrites_eq]

/-- C4: tessellation round-trips with re-evaluation — the position stored
by `BezierGeometry::new` at grid vertex index `y*(cols+1)+x` equals
`BezierPatchParameters::evaluate (x/cols) (y/rows)` exactly, for all
`0 ≤ x ≤ cols`, `0 ≤ y ≤ rows` and resolutions `rows, cols ≥ 1`. -/
theorem bezier_tessellation_round_trip (p : BezierPatchParameters)
    (rows cols x y : ℕ) (hrows : 1 ≤ rows) (hcols : 1 ≤ cols)
    (hx : x ≤ cols) (hy : y ≤ rows) :
    (BezierGeometry.new p rows cols).positions[y * (cols + 1) + x]? =
      some (p.evaluate ((x : ℚ) / (cols : ℚ)) ((y : ℚ) / (rows : ℚ))) := by
  rw [bezier_positions_eq]
  apply applyWrites_getElem_unique
  · exact List.mem_flatMap.mpr ⟨x, List.mem_range.mpr (by omega),
      List.mem_map.mpr ⟨y, List.mem_range.mpr (by omega), rfl⟩⟩
  · intro w hw hidx
    obtain ⟨x2, hx2, hw2⟩ := List.mem_flatMap.mp hw
    obtain ⟨y2, hy2, rfl⟩ := List.mem_map.mp hw2
    obtain ⟨hxeq, hyeq⟩ := grid_index_inj (cols + 1) x2 x y2 y
      (List.mem_range.mp hx2) (by omega) hidx
    subst hxeq
    subst hyeq
    rfl
  · rw [initialVertices_length]
    calc y * (cols + 1) + x < y * (cols + 1) + (cols + 1) := by omega
      _ = (y + 1) * (cols + 1) := by ring
      _ ≤ (rows + 1) * (cols + 1) := Nat.mul_le_mul_right _ (by omega)

/-- Witness for `bezier_tessellation_round_trip` at the empty patch with
`rows = cols = 1` and the grid corner `x = y = 1`. -/
theorem bezier_tessellation_round_trip_witness :
    (BezierGeometry.new BezierPatchParameters.empty 1 1).positions[1 * (1 + 1) + 1]? =
      some (BezierPatchParameters.empty.evaluate ((1 : ℚ) / ((1 : ℕ) : ℚ))
        ((1 : ℚ) / ((1 : ℕ) : ℚ))) :=
  bezier_tessellation_round_trip BezierPatchParameters.empty 1 1 1 1
    (by decide) (by decide) (by decide) (by decide)

end LSystems

namespace LSystems

/-- C9: the extensible-geometry lookup by label (in both its shared and
mutable variants, which use identical logic) fails exactly when no dynamic
attribute with the requested label is present, or when the attribute with
that label (unique by hypothesis, as produced by distinct `add_attr`
labels) stores a different element type than requested; otherwise it
returns the attribute with that label and type. -/
theorem attr_by_label_spec (geo : ExtendableBasicGeometry) (tag : ℕ)
    (label : String)
    (huniq : ∀ a ∈ geo.dynamic, ∀ b ∈ geo.dynamic,
      a.label = label → b.label = label → a = b) :
    (geo.attr_by_label tag label = none ↔
      (∀ a ∈ geo.dynamic, a.label ≠ label) ∨
      (∃ a ∈ geo.dynamic, a.label = label ∧ a.tag ≠ tag)) ∧
    (∀ a, geo.attr_by_label tag label = some a →
      a ∈ geo.dynamic ∧ a.label = label ∧ a.tag = tag) ∧
    geo.attr_by_label_mut tag label = geo.attr_by_label tag label := by
  have hcase_none : geo.dynamic.find? (fun a => a.label == label) = none →
      geo.attr_by_label tag label = none := by
    intro hf
    rw [ExtendableBasicGeometry.attr_by_label, hf]
  have hcase_some : ∀ a0, geo.dynamic.find? (fun a => a.label == label) = some a0 →
      geo.attr_by_label tag label = if a0.tag = tag then some a0 else none := by
    intro a0 hf
    rw [ExtendableBasicGeometry.attr_by_label, hf]
  refine ⟨?_, ?_, rfl⟩
  · cases hf : geo.dynamic.find? (fun a => a.label == label) with
    | none =>
      have hnone := List.find?_eq_none.mp hf
      rw [hcase_none hf]
      simp only [true_iff]
      left
      intro a ha
      have := hnone a ha
      simpa using this
    | some a0 =>
      have hmem : a0 ∈ geo.dynamic := List.mem_of_find?_eq_some hf
      have hlab : a0.label = label := by
        have := List.find?_some hf
        simpa using this
      rw [hcase_some a0 hf]
      by_cases htag : a0.tag = tag
      · rw [if_pos htag]
        simp only [reduceCtorEq, false_iff]
        push_neg
        refine ⟨⟨a0, hmem, hlab⟩, ?_⟩
        intro a ha halab
        have : a = a0 := huniq a ha a0 hmem halab hlab
        rw [this, htag]
      · rw [if_neg htag]
        simp only [true_iff]
        right
        exact ⟨a0, hmem, hlab, htag⟩
  · intro a ha
    cases hf : geo.dynamic.find? (fun a2 => a2.label == label) with
    | none => rw [hcase_none hf] at ha; cases ha
    | some a0 =>
      rw [hcase_some a0 hf] at ha
      by_cases htag : a0.tag = tag
      · rw [if_pos htag] at ha
        cases ha
        refine ⟨List.mem_of_find?_eq_some hf, ?_, htag⟩
        have := List.find?_some hf
        simpa using this
      · rw [if_neg htag] at ha
        cases ha

/-- Witness for `attr_by_label_spec`: a geometry with one dynamic
attribute labelled `alpha` of type tag `0`, queried with tag `1`. -/
theorem attr_by_label_spec_witness :
    ((ExtendableBasicGeometry.attr_by_label ⟨[], [], [], [⟨"alpha", 0, []⟩]⟩ 1 "alpha"
        = none ↔
      (∀ a ∈ ([⟨"alpha", 0, []⟩] : List DynAttr), a.label ≠ "alpha") ∨
      (∃ a ∈ ([⟨"alpha", 0, []⟩] : List DynAttr), a.label = "alpha" ∧ a.tag ≠ 1)) ∧
    (∀ a, ExtendableBasicGeometry.attr_by_label ⟨[], [], [], [⟨"alpha", 0, []⟩]⟩ 1 "alpha"
        = some a →
      a ∈ ([⟨"alpha", 0, []⟩] : List DynAttr) ∧ a.label = "alpha" ∧ a.tag = 1) ∧
    ExtendableBasicGeometry.attr_by_label_mut ⟨[], [], [], [⟨"alpha", 0, []⟩]⟩ 1 "alpha"
      = ExtendableBasicGeometry.attr_by_label ⟨[], [], [], [⟨"alpha", 0, []⟩]⟩ 1 "alpha") :=
  attr_by_label_spec ⟨[], [], [], [⟨"alpha", 0, []⟩]⟩ 1 "alpha" (by decide)

/-- C10: indexed mesh construction performs no attribute-length
consistency check — it always succeeds, with the vertex count taken from
the index sequence length and an index buffer uploaded — while
non-indexed construction fails exactly when the channel lengths are
inconsistent (`all_same` of the lengths is false, which includes the
empty-channel-list case). -/
theorem mesh_new_indexed_unchecked (pt : PrimitiveType)
    (attributes : List (List ℚ)) (indices : List ℕ) :
    (Mesh.new_indexed pt attributes indices).num_vertices = indices.length ∧
    (Mesh.new_indexed pt attributes indices).index_buffer = some indices ∧
    (Mesh.new_indexed pt attributes indices).buffers = attributes ∧
    (Mesh.new pt attributes = none ↔
      Mesh.all_same (attributes.map List.length) = false) := by
  refine ⟨rfl, rfl, rfl, ?_⟩
  rw [Mesh.new, Mesh.retrieve_vertex_count]
  cases h : Mesh.all_same (attributes.map List.length) <;> simp [h]

end LSystems
